import Mathlib

/-!
Shallow embedding of the meeting-recorder transcription clients
(`meeting-transcriber.py`, streaming, and `meeting-transcriber-batch.py`,
batch) from the `claude-skills` repository, together with theorems checking
the natural-language specification against this embedding.

Filesystem state is modelled explicitly: each per-meeting file is a value in
a record, appends are list concatenations, and fallible appends carry an
explicit success flag.  Wall-clock timestamps are opaque parameters.
-/

namespace MeetingRec

/-! ## String primitives modelling the Python operations used by the source -/

/-- Model of Python `str.lower()` as used on the ASCII keyword/transcript
strings of the source (`Char.toLower` lowers exactly the ASCII uppercase
letters). -/
def pyLower (s : String) : String :=
  ⟨s.data.map Char.toLower⟩

/-- Model of Python `str.strip()` (no argument): drop whitespace from both
ends, as applied to the incoming transcript text. -/
def pyStrip (s : String) : String :=
  ⟨((s.data.dropWhile Char.isWhitespace).reverse.dropWhile Char.isWhitespace).reverse⟩

/-- Occurrence of `pat` as a contiguous sublist of a character list; the
empty pattern occurs everywhere, matching Python semantics. -/
def listInfix (pat : List Char) : List Char → Bool
  | [] => pat.isEmpty
  | c :: rest => List.isPrefixOf pat (c :: rest) || listInfix pat rest

/-- Model of the Python substring test `needle in hay`. -/
def pyIn (needle hay : String) : Bool :=
  listInfix needle.data hay.data

/-! ## Mention detection (`_check_mentions` in both source files) -/

/-- Default `MENTION_KEYWORDS` from the source (module-level constant,
overridable from `~/.meeting-recorder.json`). -/
def MENTION_KEYWORDS : List String := ["claude", "assistant", "ai"]

/-- The fixed `question_phrases` list from `_check_mentions`. -/
def question_phrases : List String :=
  ["what do you think", "can you", "could you", "would you",
   "do you know", "what about", "hey claude", "hey assistant"]

inductive MentionKind where
  | mention
  | question
deriving DecidableEq, Repr

/-- A line of `mentions.txt`: timestamp, kind tag and the transcript text,
as written by `_check_mentions`. -/
structure MentionLine where
  ts : String
  kind : MentionKind
  text : String
deriving DecidableEq, Repr

/-- Whether `_check_mentions` classifies `transcript` as a question: a
literal question mark in the raw text, or one of the fixed
`question_phrases` occurring in the lowercased text. -/
def is_question (transcript : String) : Bool :=
  pyIn "?" transcript || question_phrases.any (fun p => pyIn p (pyLower transcript))

/-- The classification performed by the keyword loop of `_check_mentions`:
the first keyword of `keywords` whose lowercase form occurs in the
lowercased transcript wins (the loop `break`s), paired with the kind; if no
keyword occurs the loop writes nothing. -/
def classify (transcript : String) (keywords : List String) :
    Option (MentionKind × String) :=
  match keywords.find? (fun k => pyIn (pyLower k) (pyLower transcript)) with
  | none => none
  | some k =>
      some (if is_question transcript then MentionKind.question else MentionKind.mention, k)

/-- `_check_mentions timestamp transcript`: the mention line appended to
`mentions.txt`, if any. -/
def check_mentions (keywords : List String) (ts transcript : String) :
    Option MentionLine :=
  match classify transcript keywords with
  | none => none
  | some (kind, _) => some { ts := ts, kind := kind, text := transcript }

/-! ## Workspace files and the receiving path (`receive_transcriptions`) -/

/-- A line of `transcript.txt`: the wall-clock timestamp and the stripped
transcript text, as written by `_write_transcript`. -/
structure TranscriptLine where
  ts : String
  text : String
deriving DecidableEq, Repr

/-- The append-only per-meeting files touched by the receiving path. -/
structure Workspace where
  transcriptLines : List TranscriptLine
  mentionLines : List MentionLine
deriving DecidableEq, Repr

def emptyWorkspace : Workspace := ⟨[], []⟩

/-- `_write_transcript`, with the outcome of each of its two file appends
made explicit: `tOk` is whether the append to `transcript.txt` succeeds and
`mOk` whether the append to `mentions.txt` succeeds.  A failed append
raises, so nothing after it in the method body runs: in particular when
`tOk = false` the mention check is never reached, and when the mention
append fails the transcript line is already on disk. -/
def write_transcript (keywords : List String) (ts transcript : String)
    (tOk mOk : Bool) (ws : Workspace) : Workspace :=
  if tOk then
    let ws1 : Workspace :=
      { ws with transcriptLines := ws.transcriptLines ++ [⟨ts, transcript⟩] }
    match check_mentions keywords ts transcript with
    | none => ws1
    | some m =>
        if mOk then { ws1 with mentionLines := ws1.mentionLines ++ [m] } else ws1
  else ws

/-- Inbound events handled by `receive_transcriptions`.  `connectionClosed`
stands for a `ConnectionClosed` raised by `recv` (which triggers
`_reconnect` and touches no file); `unknown` covers every event type the
loop does not recognise. -/
inductive ServerEvent where
  | completed (transcript : String)
  | speechStarted
  | speechStopped
  | errorEvent (detail : String)
  | connectionClosed
  | unknown (ty : String)
deriving DecidableEq, Repr

/-- One iteration's worth of input to the receiving loop: the inbound event,
the wall-clock timestamp at handling time, and the disk outcomes of the two
possible appends. -/
structure RecvInput where
  ts : String
  ev : ServerEvent
  transcriptOk : Bool
  mentionsOk : Bool
deriving DecidableEq, Repr

/-- One iteration of the `receive_transcriptions` loop body.  Only a
`conversation.item.input_audio_transcription.completed` event with a
non-empty stripped transcript writes anything; a raised file error is
caught by the loop's blanket `except Exception` handler, which logs,
sleeps and continues, leaving the state as the failed append left it. -/
def receiveStep (keywords : List String) (ws : Workspace) (e : RecvInput) :
    Workspace :=
  match e.ev with
  | .completed t =>
      let s := pyStrip t
      if s = "" then ws
      else write_transcript keywords e.ts s e.transcriptOk e.mentionsOk ws
  | _ => ws

/-- The receiving loop run over a finite sequence of inputs. -/
def receiveRun (keywords : List String) (evs : List RecvInput)
    (ws : Workspace) : Workspace :=
  evs.foldl (receiveStep keywords) ws

/-- A failure-free receiving-loop input (both appends succeed). -/
def okInput (ts : String) (ev : ServerEvent) : RecvInput :=
  ⟨ts, ev, true, true⟩

/-- The transcript line a single receiving-loop input contributes, if any. -/
def emittedLine (e : RecvInput) : Option TranscriptLine :=
  match e.ev with
  | .completed t =>
      let s := pyStrip t
      if s = "" then none
      else if e.transcriptOk then some ⟨e.ts, s⟩ else none
  | _ => none

/-! ## The forwarding path (`send_audio`) -/

/-- An audio chunk: the raw bytes returned by one `stdin.buffer.read`; the
empty list is a zero-length read, i.e. end of the audio stream. -/
abbrev Chunk := List Nat

/-- Connection condition at the moment a chunk is handled: `self.ws` still
`None`, send succeeds, or send raises `ConnectionClosed` (after which
`_reconnect` runs and the chunk is lost). -/
inductive WsStatus where
  | noWs
  | sendOk
  | sendClosed
deriving DecidableEq, Repr

/-- One `stdin` read paired with the connection condition when handled. -/
structure ReadStep where
  chunk : Chunk
  conn : WsStatus
deriving DecidableEq, Repr

/-- The sequence of audio payloads actually transmitted by the `send_audio`
loop over the given reads (the wire carries the base64 encoding of each
chunk; encoding is injective so the payload list stands for the wire).  The
loop breaks on a zero-length read; a chunk read with no connection or whose
send raises is dropped, with no buffering or retry. -/
def send_audio : List ReadStep → List Chunk
  | [] => []
  | r :: rest =>
      if r.chunk.isEmpty then []
      else
        match r.conn with
        | .sendOk => r.chunk :: send_audio rest
        | .noWs => send_audio rest
        | .sendClosed => send_audio rest

/-! ## Reconnect backoff (`_reconnect` / `connect`) -/

/-- Initial `self.reconnect_delay`. -/
def reconnect_delay_init : Nat := 1

/-- `self.max_reconnect_delay`. -/
def max_reconnect_delay : Nat := 30

/-- Events that touch `self.reconnect_delay`: a `_reconnect` whose inner
`connect()` raises (the delay was slept, then doubled with the cap), or a
`connect()` that succeeds (the delay is reset at the end of `connect`). -/
inductive ConnEvent where
  | failedAttempt
  | connected
deriving DecidableEq, Repr

/-- Effect of one event on the stored `reconnect_delay`. -/
def delayStep (d : Nat) : ConnEvent → Nat
  | .failedAttempt => min (d * 2) max_reconnect_delay
  | .connected => reconnect_delay_init

/-- The stored `reconnect_delay` after a history of connection events,
starting from the constructor's initial value.  During a `_reconnect` the
amount slept is the stored delay before the event is applied. -/
def delayAfter (evs : List ConnEvent) : Nat :=
  evs.foldl delayStep reconnect_delay_init

/-! ## Meeting metadata (`update_metadata_ended`, `setup_meeting_directory`) -/

/-- The `metadata.json` record.  Timestamps are opaque instants (the source
stores `datetime.now(timezone.utc).isoformat()` strings). -/
structure Metadata where
  meeting_id : String
  url : String
  started_at : Nat
  ended_at : Option Nat
  participant_name : String
  status : String
deriving DecidableEq, Repr

/-- `update_metadata_ended`, called with the current wall-clock instant;
the argument and result model the content of `metadata.json`, `none`
meaning the file does not exist.  When the file exists it is re-read and
rewritten with `ended_at` set to now and `status` to `"ended"`; when it
does not exist the guard skips the whole body. -/
def update_metadata_ended (now : Nat) (file : Option Metadata) :
    Option Metadata :=
  match file with
  | none => none
  | some m => some { m with ended_at := some now, status := "ended" }

/-! ## Workspace setup (streaming vs batch `setup_meeting_directory`) -/

/-- Content of the transcript and mentions files, `none` meaning the file
does not exist on disk. -/
structure PairFS where
  transcriptFile : Option String
  mentionsFile : Option String
deriving DecidableEq, Repr

/-- The transcript/mentions part of the streaming client's
`setup_meeting_directory`: both files are unconditionally written empty
(`write_text ""`). -/
def setup_streaming (_fs : PairFS) : PairFS :=
  { transcriptFile := some "", mentionsFile := some "" }

/-- The transcript/mentions part of the batch client's
`setup_meeting_directory`: each file is written empty only when it does not
already exist. -/
def setup_batch (fs : PairFS) : PairFS :=
  { transcriptFile := if fs.transcriptFile.isNone then some "" else fs.transcriptFile,
    mentionsFile := if fs.mentionsFile.isNone then some "" else fs.mentionsFile }

/-! ## Claim-side definition for the mention-classification refinement

The spec describes the question-phrase set as containing "hey <keyword>"
parametrically in the matched keyword; the source hardcodes `"hey claude"`
and `"hey assistant"`.  The following definition follows the spec's words,
to be compared with `classify`. -/

/-- Modelled from the spec: `classify` as the spec words it, with the
question-phrase set containing "hey <keyword>" for the matched keyword in
addition to the fixed phrases. -/
def classifySpecced (transcript : String) (keywords : List String) :
    Option (MentionKind × String) :=
  match keywords.find? (fun k => pyIn (pyLower k) (pyLower transcript)) with
  | none => none
  | some k =>
      let isQ := is_question transcript ||
        pyIn (pyLower ("hey " ++ k)) (pyLower transcript)
      some (if isQ then MentionKind.question else MentionKind.mention, k)

/-- Coverage of the mentions file by the transcript file: every mention
record cites a timestamp and text that appear as a persisted transcript
line. -/
def covered (ws : Workspace) : Prop :=
  ∀ m ∈ ws.mentionLines,
    ∃ l ∈ ws.transcriptLines, l.ts = m.ts ∧ l.text = m.text

/-! ## Helper lemmas -/

theorem delayFold_bounds (evs : List ConnEvent) (d : Nat)
    (h1 : 1 ≤ d) (h2 : d ≤ max_reconnect_delay) :
    1 ≤ evs.foldl delayStep d ∧ evs.foldl delayStep d ≤ max_reconnect_delay := by
  induction evs generalizing d with
  | nil => exact ⟨h1, h2⟩
  | cons e rest ih =>
      cases e with
      | failedAttempt =>
          apply ih
          · simp only [delayStep, max_reconnect_delay] at *
            omega
          · simp only [delayStep, max_reconnect_delay] at *
            omega
      | connected =>
          apply ih <;> simp [delayStep, reconnect_delay_init, max_reconnect_delay]

theorem delayAfter_bounds (evs : List ConnEvent) :
    1 ≤ delayAfter evs ∧ delayAfter evs ≤ max_reconnect_delay :=
  delayFold_bounds evs reconnect_delay_init (le_refl 1) (by simp [reconnect_delay_init, max_reconnect_delay])

theorem delayAfter_append (evs : List ConnEvent) (e : ConnEvent) :
    delayAfter (evs ++ [e]) = delayStep (delayAfter evs) e := by
  simp [delayAfter, List.foldl_append]

theorem receiveRun_cons (keywords : List String) (e : RecvInput)
    (rest : List RecvInput) (ws : Workspace) :
    receiveRun keywords (e :: rest) ws =
      receiveRun keywords rest (receiveStep keywords ws e) :=
  rfl

theorem receiveStep_transcript (keywords : List String) (ws : Workspace)
    (e : RecvInput) :
    (receiveStep keywords ws e).transcriptLines =
      ws.transcriptLines ++ (emittedLine e).toList := by
  obtain ⟨ts, ev, tOk, mOk⟩ := e
  cases ev <;> simp [receiveStep, emittedLine]
  case completed t =>
    by_cases hs : pyStrip t = ""
    · simp [hs]
    · cases tOk with
      | false => simp [hs, write_transcript]
      | true =>
          cases hc : check_mentions keywords ts (pyStrip t) <;>
            cases mOk <;> simp [hs, write_transcript, hc]

theorem receiveRun_transcript (keywords : List String) (evs : List RecvInput)
    (ws : Workspace) :
    (receiveRun keywords evs ws).transcriptLines =
      ws.transcriptLines ++ evs.filterMap emittedLine := by
  induction evs generalizing ws with
  | nil => simp [receiveRun]
  | cons e rest ih =>
      rw [receiveRun_cons, ih, receiveStep_transcript]
      cases he : emittedLine e <;> simp [he]

theorem emittedLine_text (e : RecvInput) (l : TranscriptLine)
    (h : emittedLine e = some l) : l.text ≠ "" := by
  obtain ⟨ts, ev, tOk, mOk⟩ := e
  cases ev <;> simp [emittedLine] at h
  case completed t =>
    by_cases hs : pyStrip t = ""
    · simp [hs] at h
    · cases tOk with
      | false => simp [hs] at h
      | true =>
          simp [hs] at h
          rw [← h]
          exact hs

theorem check_mentions_fields (keywords : List String) (ts t : String)
    (m : MentionLine) (h : check_mentions keywords ts t = some m) :
    m.ts = ts ∧ m.text = t := by
  unfold check_mentions at h
  cases hc : classify t keywords with
  | none => rw [hc] at h; cases h
  | some p =>
      obtain ⟨kind, k⟩ := p
      rw [hc] at h
      simp only [Option.some.injEq] at h
      rw [← h]
      exact ⟨rfl, rfl⟩

theorem receiveStep_covered (keywords : List String) (ws : Workspace)
    (e : RecvInput) (h : covered ws) : covered (receiveStep keywords ws e) := by
  obtain ⟨ts, ev, tOk, mOk⟩ := e
  cases ev <;> try exact h
  case completed t =>
    by_cases hs : pyStrip t = ""
    · simpa [receiveStep, hs] using h
    · cases tOk with
      | false => simpa [receiveStep, hs, write_transcript] using h
      | true =>
          have hsub : ∀ m ∈ ws.mentionLines,
              ∃ l ∈ ws.transcriptLines ++ [(⟨ts, pyStrip t⟩ : TranscriptLine)],
                l.ts = m.ts ∧ l.text = m.text := by
            intro m hm
            obtain ⟨l, hl, hfields⟩ := h m hm
            exact ⟨l, List.mem_append_left _ hl, hfields⟩
          cases hc : check_mentions keywords ts (pyStrip t) with
          | none =>
              intro m hm
              simp only [receiveStep, hs, if_neg hs, write_transcript, hc] at hm ⊢
              exact hsub m hm
          | some mr =>
              have hmr := check_mentions_fields keywords ts (pyStrip t) mr hc
              cases mOk with
              | false =>
                  intro m hm
                  simp only [receiveStep, hs, if_neg hs, write_transcript, hc] at hm ⊢
                  exact hsub m hm
              | true =>
                  intro m hm
                  simp only [receiveStep, hs, if_neg hs, write_transcript, hc] at hm ⊢
                  rcases List.mem_append.mp hm with hold | hnew
                  · exact hsub m hold
                  · have : m = mr := by simpa using hnew
                    subst this
                    exact ⟨⟨ts, pyStrip t⟩,
                      List.mem_append_right _ (by simp), hmr.1.symm, hmr.2.symm⟩

theorem receiveRun_covered (keywords : List String) (evs : List RecvInput)
    (ws : Workspace) (h : covered ws) : covered (receiveRun keywords evs ws) := by
  induction evs generalizing ws with
  | nil => exact h
  | cons e rest ih =>
      rw [receiveRun_cons]
      exact ih _ (receiveStep_covered keywords ws e h)

theorem covered_empty : covered emptyWorkspace := by
  intro m hm
  simp [emptyWorkspace] at hm

/-! ## C1 — reconnect backoff -/

/-- C1: the stored reconnect delay always lies between the initial value 1
and the ceiling 30 (so the amount slept before any attempt is at most 30),
a failed attempt never decreases it and at most doubles it (so the waited
delays between successes are monotonically non-decreasing), and a
successful `connect()` resets it to the initial value 1. -/
theorem C1_backoff_invariant (evs : List ConnEvent) :
    1 ≤ delayAfter evs ∧
    delayAfter evs ≤ max_reconnect_delay ∧
    delayAfter evs ≤ delayAfter (evs ++ [ConnEvent.failedAttempt]) ∧
    delayAfter (evs ++ [ConnEvent.failedAttempt]) ≤ 2 * delayAfter evs ∧
    delayAfter (evs ++ [ConnEvent.connected]) = reconnect_delay_init := by
  obtain ⟨h1, h2⟩ := delayAfter_bounds evs
  rw [delayAfter_append, delayAfter_append]
  simp only [delayStep, max_reconnect_delay] at *
  refine ⟨h1, h2, ?_, ?_, trivial⟩ <;> omega

/-! ## C3 — one transcript line per completed event, in order -/

/-- C3 counterexample: a receiving-path sequence consisting of exactly one
`transcription.completed` event (whose transcript is a single space)
appends no transcript line at all, refuting "exactly one transcript line is
appended per transcription.completed event". -/
theorem C3_counterexample :
    (receiveRun MENTION_KEYWORDS
        [okInput "09:00:00" (ServerEvent.completed " ")]
        emptyWorkspace).transcriptLines = [] := by
  decide

/-- C3 (amended): on the failure-free receiving path, exactly one
transcript line is appended per `transcription.completed` event whose
transcript is non-whitespace (whitespace-only completed events append
nothing), lines appear in the order the events are received, and
connection-closed events with their reconnects neither lose nor duplicate
lines; in particular the sequence completed "hi", closed, reconnect,
completed "there" yields exactly the line for "hi" then the line for
"there". -/
theorem C3_receive_order (keywords : List String)
    (evs : List (String × ServerEvent)) :
    (receiveRun keywords (evs.map (fun p => okInput p.1 p.2))
        emptyWorkspace).transcriptLines =
      evs.filterMap (fun p =>
        match p.2 with
        | ServerEvent.completed t =>
            if pyStrip t = "" then none else some ⟨p.1, pyStrip t⟩
        | _ => none) ∧
    (receiveRun MENTION_KEYWORDS
        [okInput "10:00:00" (ServerEvent.completed "hi"),
         okInput "10:00:05" ServerEvent.connectionClosed,
         okInput "10:00:09" (ServerEvent.completed "there")]
        emptyWorkspace).transcriptLines =
      [⟨"10:00:00", "hi"⟩, ⟨"10:00:09", "there"⟩] := by
  constructor
  · rw [receiveRun_transcript]
    have hfun : (emittedLine ∘ fun p : String × ServerEvent => okInput p.1 p.2) =
        (fun p : String × ServerEvent =>
          match p.2 with
          | ServerEvent.completed t =>
              if pyStrip t = "" then none else some ⟨p.1, pyStrip t⟩
          | _ => none) := by
      funext p
      obtain ⟨ts, ev⟩ := p
      cases ev <;> simp [emittedLine, okInput, Function.comp]
    rw [List.filterMap_map, hfun]
    simp [emptyWorkspace]
  · decide

/-! ## C5 — persistence failures -/

/-- C5 counterexample: a transcript append that fails (attempted for the
non-whitespace transcript "hello claude") does not terminate the receiving
loop — the next completed event is still persisted, so the client keeps
streaming after a local storage write has failed. -/
theorem C5_counterexample :
    pyStrip "hello claude" ≠ "" ∧
    (receiveRun MENTION_KEYWORDS
        [⟨"10:00:01", ServerEvent.completed "hello claude", false, true⟩,
         ⟨"10:00:02", ServerEvent.completed "there", true, true⟩]
        emptyWorkspace).transcriptLines = [⟨"10:00:02", "there"⟩] := by
  decide

/-- C5 (amended): a persistence failure while appending a transcript line
is caught by the receiving loop's blanket exception handler: the failed
line is dropped without retry and the loop continues with the subsequent
events exactly as if the event had not occurred; the client is not
terminated and no metadata close is attempted at that point. -/
theorem C5_persistence_swallowed (keywords : List String) (ts t : String)
    (mOk : Bool) (rest : List RecvInput) (ws : Workspace) :
    receiveRun keywords (⟨ts, ServerEvent.completed t, false, mOk⟩ :: rest) ws =
      receiveRun keywords rest ws := by
  rw [receiveRun_cons]
  congr 1
  by_cases hs : pyStrip t = "" <;> simp [receiveStep, hs, write_transcript]

/-! ## C6 — persist-then-classify atomicity -/

/-- C6: mention detection runs only after the transcript line is durably
appended: a failed transcript append leaves the workspace unchanged (in
particular no mention is recorded for that line), and over any run every
record in the mentions file cites the timestamp and text of a line that is
present in the transcript file. -/
theorem C6_persist_then_classify (keywords : List String)
    (evs : List RecvInput) (ts transcript : String) (mOk : Bool)
    (ws : Workspace) :
    write_transcript keywords ts transcript false mOk ws = ws ∧
    ∀ m ∈ (receiveRun keywords evs emptyWorkspace).mentionLines,
      ∃ l ∈ (receiveRun keywords evs emptyWorkspace).transcriptLines,
        l.ts = m.ts ∧ l.text = m.text :=
  ⟨rfl, receiveRun_covered keywords evs emptyWorkspace covered_empty⟩

/-- Witness for C6 at a concrete run that does record a mention. -/
theorem C6_persist_then_classify_witness :
    write_transcript MENTION_KEYWORDS "10:00:00" "x" false true emptyWorkspace =
      emptyWorkspace ∧
    ∀ m ∈ (receiveRun MENTION_KEYWORDS
        [okInput "10:00:00" (ServerEvent.completed "hey claude, can you help?")]
        emptyWorkspace).mentionLines,
      ∃ l ∈ (receiveRun MENTION_KEYWORDS
          [okInput "10:00:00" (ServerEvent.completed "hey claude, can you help?")]
          emptyWorkspace).transcriptLines,
        l.ts = m.ts ∧ l.text = m.text :=
  C6_persist_then_classify MENTION_KEYWORDS
    [okInput "10:00:00" (ServerEvent.completed "hey claude, can you help?")]
    "10:00:00" "x" true emptyWorkspace

/-! ## C9 — whitespace-only transcripts -/

/-- C9: a completed event whose transcript strips to the empty string is
silently discarded — the loop step leaves both files untouched — and
consequently every line ever present in the transcript file has non-empty
text. -/
theorem C9_whitespace_discarded (keywords : List String) (ts t : String)
    (tOk mOk : Bool) (ws : Workspace) (evs : List RecvInput)
    (h : pyStrip t = "") :
    receiveStep keywords ws ⟨ts, ServerEvent.completed t, tOk, mOk⟩ = ws ∧
    ∀ l ∈ (receiveRun keywords evs emptyWorkspace).transcriptLines,
      l.text ≠ "" := by
  constructor
  · simp [receiveStep, h]
  · intro l hl
    rw [receiveRun_transcript] at hl
    simp only [emptyWorkspace, List.nil_append] at hl
    obtain ⟨e, _, hel⟩ := List.mem_filterMap.mp hl
    exact emittedLine_text e l hel

/-- Witness for C9 at concrete inputs. -/
theorem C9_whitespace_discarded_witness :
    receiveStep MENTION_KEYWORDS emptyWorkspace
        ⟨"09:00:00", ServerEvent.completed "  ", true, true⟩ = emptyWorkspace ∧
    ∀ l ∈ (receiveRun MENTION_KEYWORDS
        [okInput "09:00:01" (ServerEvent.completed "hi")]
        emptyWorkspace).transcriptLines, l.text ≠ "" :=
  C9_whitespace_discarded MENTION_KEYWORDS "09:00:00" "  " true true
    emptyWorkspace [okInput "09:00:01" (ServerEvent.completed "hi")]
    (by decide)

/-! ## C2 — close() / update_metadata_ended idempotence -/

/-- C2 counterexample: two `update_metadata_ended` calls at distinct
instants do not leave the metadata unchanged — the second call overwrites
`ended_at` with its own time, so calling close() again does have an
effect. -/
theorem C2_counterexample :
    update_metadata_ended 5 (update_metadata_ended 3 (some
      { meeting_id := "m", url := "u", started_at := 0, ended_at := none,
        participant_name := "p", status := "active" })) ≠
    update_metadata_ended 3 (some
      { meeting_id := "m", url := "u", started_at := 0, ended_at := none,
        participant_name := "p", status := "active" }) := by
  decide

/-- C2 (amended): after the first call `status = "ended"` and `ended_at` is
non-null; a further call keeps `status = "ended"` but overwrites `ended_at`
with that call's time, so the stored record equals the one a single close at
the later time would produce — `ended_at` is set on every call and reflects
the most recent close, not the first; the call is a no-op only when the
wall clock has not advanced. -/
theorem C2_close_overwrites (m : Metadata) (t1 t2 : Nat) :
    (∃ m1, update_metadata_ended t1 (some m) = some m1 ∧
       m1.status = "ended" ∧ m1.ended_at = some t1) ∧
    update_metadata_ended t2 (update_metadata_ended t1 (some m)) =
      update_metadata_ended t2 (some m) ∧
    update_metadata_ended t1 (update_metadata_ended t1 (some m)) =
      update_metadata_ended t1 (some m) :=
  ⟨⟨_, rfl, rfl, rfl⟩, rfl, rfl⟩

/-! ## C4 — mention classification -/

/-- C4 counterexample: with the caller-supplied keyword "bob", the text
"hey bob, please summarize" contains the claim's "hey <keyword>" phrase yet
the code classifies it as MENTION, because the code's question-phrase list
hardcodes only "hey claude" and "hey assistant"; the claim's rule, with the
parametric phrase (`classifySpecced`), would give QUESTION. -/
theorem C4_counterexample :
    classify "hey bob, please summarize" ["bob"] =
      some (MentionKind.mention, "bob") ∧
    classifySpecced "hey bob, please summarize" ["bob"] =
      some (MentionKind.question, "bob") := by
  decide

/-- C4 (amended): classification matches each keyword case-insensitively as
a substring and reports only the first matching keyword; the kind is
QUESTION exactly when the text contains a literal question mark or one of
the eight fixed question phrases ("what do you think", "can you", "could
you", "would you", "do you know", "what about", "hey claude", "hey
assistant" — not a parametric "hey <keyword>"), otherwise MENTION; with no
keyword match the result is None.  The three example classifications of the
claim hold. -/
theorem C4_classify_characterized (text : String) (keywords : List String)
    (kind : MentionKind) (k : String) :
    (classify text keywords = none ↔
       ∀ k' ∈ keywords, pyIn (pyLower k') (pyLower text) = false) ∧
    (classify text keywords = some (kind, k) →
       keywords.find? (fun k' => pyIn (pyLower k') (pyLower text)) = some k ∧
       (kind = MentionKind.question ↔ is_question text = true)) ∧
    classify "Hey Claude, can you summarize?" ["claude"] =
      some (MentionKind.question, "claude") ∧
    classify "claude is a nice name" ["claude"] =
      some (MentionKind.mention, "claude") ∧
    classify "no keywords here" ["claude"] = none := by
  refine ⟨?_, ?_, by decide, by decide, by decide⟩
  · unfold classify
    cases hf : keywords.find? (fun k' => pyIn (pyLower k') (pyLower text)) with
    | none =>
        simp only [hf]
        constructor
        · intro _ k' hk'
          have := List.find?_eq_none.mp hf k' hk'
          simpa using this
        · intro _; trivial
    | some k0 =>
        simp only [hf]
        constructor
        · intro h; cases h
        · intro hall
          exfalso
          have hk0 : pyIn (pyLower k0) (pyLower text) = true := by
            simpa using List.find?_some hf
          have hmem : k0 ∈ keywords := List.mem_of_find?_eq_some hf
          rw [hall k0 hmem] at hk0
          cases hk0
  · intro h
    unfold classify at h
    cases hf : keywords.find? (fun k' => pyIn (pyLower k') (pyLower text)) with
    | none => rw [hf] at h; cases h
    | some k0 =>
        rw [hf] at h
        simp only [Option.some.injEq, Prod.mk.injEq] at h
        obtain ⟨hkind, hk⟩ := h
        subst hk
        refine ⟨rfl, ?_⟩
        cases hq : is_question text with
        | true =>
            simp only [hq, if_true] at hkind
            subst hkind
            simp
        | false =>
            simp only [hq, Bool.false_eq_true, if_false] at hkind
            subst hkind
            simp

/-- Witness for C4 at the claim's first example. -/
theorem C4_classify_characterized_witness :
    ["claude"].find?
        (fun k' => pyIn (pyLower k') (pyLower "Hey Claude, can you summarize?")) =
      some "claude" ∧
    (MentionKind.question = MentionKind.question ↔
      is_question "Hey Claude, can you summarize?" = true) :=
  (C4_classify_characterized "Hey Claude, can you summarize?" ["claude"]
    MentionKind.question "claude").2.1 (by decide)

/-! ## C7 — audio forwarding path -/

theorem send_audio_sublist (reads : List ReadStep) :
    (send_audio reads).Sublist (reads.map ReadStep.chunk) := by
  induction reads with
  | nil => simp [send_audio]
  | cons r rest ih =>
      by_cases h : r.chunk.isEmpty
      · simp [send_audio, h]
      · cases hc : r.conn with
        | sendOk =>
            simp only [send_audio, h, hc, Bool.false_eq_true, if_false,
              List.map_cons]
            exact List.Sublist.cons₂ _ ih
        | noWs =>
            simp only [send_audio, h, hc, Bool.false_eq_true, if_false,
              List.map_cons]
            exact List.Sublist.cons _ ih
        | sendClosed =>
            simp only [send_audio, h, hc, Bool.false_eq_true, if_false,
              List.map_cons]
            exact List.Sublist.cons _ ih

theorem send_audio_stops_at_eof (pre : List ReadStep) (r : ReadStep)
    (post : List ReadStep) (hpre : ∀ p ∈ pre, ¬ p.chunk.isEmpty)
    (hr : r.chunk = []) :
    send_audio (pre ++ r :: post) = send_audio pre := by
  induction pre with
  | nil => simp [send_audio, hr]
  | cons p rest ih =>
      have hp : ¬ p.chunk.isEmpty = true := hpre p (by simp)
      have hrest : ∀ q ∈ rest, ¬ q.chunk.isEmpty = true :=
        fun q hq => hpre q (by simp [hq])
      cases hc : p.conn <;>
        simp [send_audio, hp, hc, ih hrest]

/-- C7: the transmitted payload sequence is a sublist of the chunks read in
production order (so no reordering; any payload appears on the wire at most
as often as it was produced, so no chunk is duplicated); chunks read while
the connection is unavailable or whose send raises are simply absent; and a
zero-length read terminates the forwarding path, so nothing read after it
is transmitted. -/
theorem C7_send_order (reads : List ReadStep) (c : Chunk)
    (pre post : List ReadStep) (r : ReadStep)
    (hpre : ∀ p ∈ pre, ¬ p.chunk.isEmpty) (hr : r.chunk = []) :
    (send_audio reads).Sublist (reads.map ReadStep.chunk) ∧
    (send_audio reads).count c ≤ (reads.map ReadStep.chunk).count c ∧
    send_audio reads =
      ((reads.takeWhile (fun p => !p.chunk.isEmpty)).filter
        (fun p => match p.conn with | WsStatus.sendOk => true | _ => false)).map
        ReadStep.chunk ∧
    send_audio (pre ++ r :: post) = send_audio pre := by
  refine ⟨send_audio_sublist reads, (send_audio_sublist reads).count_le c,
    ?_, send_audio_stops_at_eof pre r post hpre hr⟩
  induction reads with
  | nil => simp [send_audio]
  | cons q rest ih =>
      by_cases h : q.chunk.isEmpty
      · simp [send_audio, h]
      · cases hc : q.conn <;> simp [send_audio, h, hc, ih]

/-- Witness for C7 at a concrete read sequence with an outage, an EOF and
trailing reads. -/
theorem C7_send_order_witness :
    (send_audio [⟨[1, 2], WsStatus.sendOk⟩, ⟨[3], WsStatus.noWs⟩]).Sublist
      (List.map ReadStep.chunk [⟨[1, 2], WsStatus.sendOk⟩, ⟨[3], WsStatus.noWs⟩]) ∧
    (send_audio [⟨[1, 2], WsStatus.sendOk⟩, ⟨[3], WsStatus.noWs⟩]).count [1, 2] ≤
      (List.map ReadStep.chunk
        [⟨[1, 2], WsStatus.sendOk⟩, ⟨[3], WsStatus.noWs⟩]).count [1, 2] ∧
    send_audio [⟨[1, 2], WsStatus.sendOk⟩, ⟨[3], WsStatus.noWs⟩] =
      ((List.takeWhile (fun p => !p.chunk.isEmpty)
          [⟨[1, 2], WsStatus.sendOk⟩, ⟨[3], WsStatus.noWs⟩]).filter
        (fun p => match p.conn with | WsStatus.sendOk => true | _ => false)).map
        ReadStep.chunk ∧
    send_audio
        ([⟨[7], WsStatus.sendClosed⟩] ++
          (⟨[], WsStatus.sendOk⟩ : ReadStep) :: [⟨[9], WsStatus.sendOk⟩]) =
      send_audio [⟨[7], WsStatus.sendClosed⟩] :=
  C7_send_order [⟨[1, 2], WsStatus.sendOk⟩, ⟨[3], WsStatus.noWs⟩] [1, 2]
    [⟨[7], WsStatus.sendClosed⟩] [⟨[9], WsStatus.sendOk⟩]
    ⟨[], WsStatus.sendOk⟩ (by decide) rfl

/-! ## C8 — streaming vs batch workspace setup -/

/-- C8: the streaming client's setup unconditionally truncates the
transcript and mentions files (both are empty afterwards regardless of
prior contents), while the batch client's setup preserves an existing
file's contents and writes a file empty only when it does not already
exist. -/
theorem C8_setup_truncation (fs : PairFS) (c : String) :
    setup_streaming fs = ⟨some "", some ""⟩ ∧
    (fs.transcriptFile = some c → (setup_batch fs).transcriptFile = some c) ∧
    (fs.transcriptFile = none → (setup_batch fs).transcriptFile = some "") ∧
    (fs.mentionsFile = some c → (setup_batch fs).mentionsFile = some c) ∧
    (fs.mentionsFile = none → (setup_batch fs).mentionsFile = some "") := by
  refine ⟨rfl, ?_, ?_, ?_, ?_⟩ <;> intro h <;> simp [setup_batch, h]

/-- Witness for C8 on a filesystem with an existing transcript and a
missing mentions file. -/
theorem C8_setup_truncation_witness :
    (setup_batch ⟨some "old line", none⟩).transcriptFile = some "old line" ∧
    (setup_batch ⟨some "old line", none⟩).mentionsFile = some "" :=
  ⟨(C8_setup_truncation ⟨some "old line", none⟩ "old line").2.1 rfl,
   (C8_setup_truncation ⟨some "old line", none⟩ "old line").2.2.2.2 rfl⟩

/-! ## C10 — close() with no metadata file -/

/-- C10: when the metadata file does not exist, `update_metadata_ended` is
a silent no-op: it raises nothing, creates no file and changes no state. -/
theorem C10_close_missing_file (now : Nat) :
    update_metadata_ended now none = none :=
  rfl

end MeetingRec
